import Mathlib

/-!
Verification of the curvy-route finder (`api/services/curvy_route_service.py`).

The service is embedded shallowly over exact rationals `ℚ`.  The two external
collaborators — the routing engine (`OSRMService.calculate_route`) and the
corridor query (`CurvatureRepository.get_segments_in_corridor`) — are passed in
as function parameters.  Python's stable `list.sort` is modelled by
`List.insertionSort`, which is stable under the same comparison and hence
denotes the same function on lists.  Where a claim is about the number of
routing-engine calls, the embedding threads an explicit call counter.
-/

namespace CurvyRoute

/-- A `WaypointRequest`: `{lng, lat}`. -/
structure Waypoint where
  lng : ℚ
  lat : ℚ
deriving Repr, DecidableEq

/-- The routing-engine result used by the service: geometry, distance, duration. -/
structure Route where
  geometry : List (ℚ × ℚ)
  distance : ℚ
  duration : ℚ
deriving Repr, DecidableEq

/-- A corridor candidate segment as returned by `get_segments_in_corridor`:
the dict fields read by the service. -/
structure Segment where
  id : ℕ
  name : Option String
  curvature : ℚ
  length : ℚ
  distance_from_route : ℚ
  route_position : ℚ
  centroid_lng : ℚ
  centroid_lat : ℚ
deriving Repr, DecidableEq

/-- The scored dict `{**seg, "score": score}` built in `_score_segments`. -/
structure ScoredSegment where
  seg : Segment
  score : ℚ
deriving Repr, DecidableEq

/-- Caller-supplied options (`CurvyRouteRequest.options`). -/
structure CurvyRouteOptions where
  corridor_width : ℚ
  min_curvature : ℚ
  min_segment_length : ℚ
  max_waypoints : ℕ
  max_detour_ratio : ℚ
deriving Repr, DecidableEq

/-- A `CurvyRouteRequest`: start, end and options. -/
structure CurvyRouteRequest where
  start : Waypoint
  end_ : Waypoint
  options : CurvyRouteOptions
deriving Repr, DecidableEq

/-- The per-segment summary record (`CurvySegmentInfo`). -/
structure CurvySegmentInfo where
  id : ℕ
  name : Option String
  curvature : ℚ
  length : ℤ
  score : ℚ
deriving Repr, DecidableEq

/-- The response model (`CurvyRouteResponse`) as assembled by `_build_response`. -/
structure CurvyRouteResponse where
  geometry : List (ℚ × ℚ)
  distance : ℚ
  duration : ℚ
  baseline_distance : ℚ
  baseline_duration : ℚ
  detour_ratio : ℚ
  curvy_segments : List CurvySegmentInfo
  total_curvature_score : ℚ
  waypoints_used : ℕ
  corridor_width : ℚ
  generated_waypoints : List Waypoint
deriving Repr, DecidableEq

/-- Python's built-in `max` over a list.  `_score_segments` only applies it to a
non-empty list (it returns early on the empty list), so the empty case here is
an arbitrary default that is never reached through the service. -/
def pyMax : List ℚ → ℚ
  | [] => 0
  | x :: xs => xs.foldl max x

/-- Python's `int(...)`: truncation toward zero. -/
def pyInt (q : ℚ) : ℤ := if 0 ≤ q then ⌊q⌋ else -⌊-q⌋

/-- Rounding to the nearest integer, halves to the even integer, as Python's
built-in `round` does. -/
def roundHalfEven (q : ℚ) : ℤ :=
  if q - ⌊q⌋ < 1/2 then ⌊q⌋
  else if 1/2 < q - ⌊q⌋ then ⌊q⌋ + 1
  else if 2 ∣ ⌊q⌋ then ⌊q⌋ else ⌊q⌋ + 1

/-- Python's `round(q, n)` on exact values. -/
def pyRound (q : ℚ) (n : ℕ) : ℚ := (roundHalfEven (q * 10 ^ n) : ℚ) / 10 ^ n

/-- The guarded normalization `v / m if m > 0 else 0` used for the curvature
and length terms of `_score_segments`. -/
def normTerm (v m : ℚ) : ℚ := if m > 0 then v / m else 0

/-- The proximity term `max(0, 1.0 - distance_from_route / corridor_width)`
of `_score_segments`. -/
def proxTerm (d w : ℚ) : ℚ := max 0 (1 - d / w)

/-- The body of the scoring loop in `_score_segments`, given the set maxima. -/
def scoreOne (max_curvature max_length corridor_width : ℚ) (seg : Segment) :
    ScoredSegment :=
  { seg := seg
    score := normTerm seg.curvature max_curvature * 0.5
           + normTerm seg.length max_length * 0.3
           + proxTerm seg.distance_from_route corridor_width * 0.2 }

/-- `scored.sort(key=lambda s: s["score"], reverse=True)`: the stable
descending sort by score (CPython's sort is stable, and `reverse=True`
preserves the original order of ties). -/
def sortByScoreDesc (l : List ScoredSegment) : List ScoredSegment :=
  l.insertionSort fun a b => b.score ≤ a.score

/-- `remaining.sort(key=lambda s: s["score"])`: the stable ascending sort by
score used by `_trim_for_detour`. -/
def sortByScoreAsc (l : List ScoredSegment) : List ScoredSegment :=
  l.insertionSort fun a b => a.score ≤ b.score

/-- `sort(key=lambda s: s["route_position"])`: the stable ascending sort by
route position. -/
def sortByPosition (l : List ScoredSegment) : List ScoredSegment :=
  l.insertionSort fun a b => a.seg.route_position ≤ b.seg.route_position

/-- `CurvyRouteService._score_segments`. -/
def score_segments (segments : List Segment) (corridor_width : ℚ) :
    List ScoredSegment :=
  match segments with
  | [] => []
  | _ :: _ =>
    let max_curvature := pyMax (segments.map (·.curvature))
    let max_length := pyMax (segments.map (·.length))
    sortByScoreDesc (segments.map (scoreOne max_curvature max_length corridor_width))

/-- The `for seg in scored` loop of `_select_segments`, with `selected` as the
accumulator. -/
def selectGo (max_waypoints : ℕ) (selected : List ScoredSegment) :
    List ScoredSegment → List ScoredSegment
  | [] => selected
  | seg :: rest =>
    if max_waypoints ≤ selected.length then selected
    else if selected.any (fun s =>
        decide (|seg.seg.route_position - s.seg.route_position| < 0.03)) then
      selectGo max_waypoints selected rest
    else
      selectGo max_waypoints (selected ++ [seg]) rest

/-- `CurvyRouteService._select_segments`. -/
def select_segments (scored : List ScoredSegment) (max_waypoints : ℕ) :
    List ScoredSegment :=
  selectGo max_waypoints [] scored

/-- The Segment Selector of §4.2 over an arbitrarily ordered input: the stable
descending-by-score sort performed at the end of `_score_segments`, followed by
the greedy spacing selection of `_select_segments`. -/
def selector_pipeline (scored : List ScoredSegment) (max_waypoints : ℕ) :
    List ScoredSegment :=
  select_segments (sortByScoreDesc scored) max_waypoints

/-- `CurvyRouteService._build_waypoint_list`. -/
def build_waypoint_list (request : CurvyRouteRequest)
    (selected : List ScoredSegment) : List Waypoint :=
  [request.start]
    ++ selected.map (fun s => ⟨s.seg.centroid_lng, s.seg.centroid_lat⟩)
    ++ [request.end_]

/-- `CurvyRouteService._build_segment_infos`. -/
def build_segment_infos (selected : List ScoredSegment) : List CurvySegmentInfo :=
  selected.map fun s =>
    { id := s.seg.id
      name := s.seg.name
      curvature := s.seg.curvature
      length := pyInt s.seg.length
      score := pyRound s.score 3 }

/-- The guarded detour-ratio expression
`route.distance / baseline.distance if baseline.distance > 0 else 1.0`. -/
def ratioOf (route_distance baseline_distance : ℚ) : ℚ :=
  if baseline_distance > 0 then route_distance / baseline_distance else 1

/-- `CurvyRouteService._build_response`. -/
def build_response (route baseline : Route)
    (curvy_segments : List CurvySegmentInfo)
    (generated_waypoints : List Waypoint) (corridor_width : ℚ) :
    CurvyRouteResponse :=
  { geometry := route.geometry
    distance := route.distance
    duration := route.duration
    baseline_distance := baseline.distance
    baseline_duration := baseline.duration
    detour_ratio := pyRound (ratioOf route.distance baseline.distance) 2
    curvy_segments := curvy_segments
    total_curvature_score := (curvy_segments.map (·.curvature)).sum
    waypoints_used := curvy_segments.length
    corridor_width := corridor_width
    generated_waypoints := generated_waypoints }

/-- The `for _ in range(max_retries)` loop of `_trim_for_detour`.  Returns the
early `return` value if the ratio became acceptable, together with the final
state of `remaining` and the number of routing-engine calls made inside the
loop. -/
def trimLoop (osrm : List Waypoint → Route) (request : CurvyRouteRequest)
    (baseline : Route) (max_detour_ratio : ℚ) :
    ℕ → List ScoredSegment →
      Option (Route × List ScoredSegment × List Waypoint × ℚ)
        × List ScoredSegment × ℕ
  | 0, remaining => (none, remaining, 0)
  | fuel + 1, remaining =>
    if remaining.length ≤ 1 then (none, remaining, 0)
    else
      let remaining1 := (sortByScoreAsc remaining).tail
      let remaining2 := sortByPosition remaining1
      let waypoint_list := build_waypoint_list request remaining2
      let route := osrm waypoint_list
      let ratio := ratioOf route.distance baseline.distance
      if ratio ≤ max_detour_ratio then
        (some (route, remaining2, waypoint_list, ratio), remaining2, 1)
      else
        let res := trimLoop osrm request baseline max_detour_ratio fuel remaining2
        (res.1, res.2.1, res.2.2 + 1)

/-- `CurvyRouteService._trim_for_detour`.  The last component counts the
routing-engine calls the method makes. -/
def trim_for_detour (osrm : List Waypoint → Route) (request : CurvyRouteRequest)
    (baseline : Route) (selected : List ScoredSegment) (max_detour_ratio : ℚ)
    (max_retries : ℕ) :
    Route × List ScoredSegment × List Waypoint × ℚ × ℕ :=
  let out := trimLoop osrm request baseline max_detour_ratio max_retries selected
  match out.1 with
  | some (route, remaining, waypoint_list, ratio) =>
      (route, remaining, waypoint_list, ratio, out.2.2)
  | none =>
      let remaining2 := sortByPosition out.2.1
      let waypoint_list := build_waypoint_list request remaining2
      let route := osrm waypoint_list
      let ratio := ratioOf route.distance baseline.distance
      (route, remaining2, waypoint_list, ratio, out.2.2 + 1)

/-- `CurvyRouteService.find_curvy_route`.  `osrm` models
`OSRMService.calculate_route` and `repo` models
`CurvatureRepository.get_segments_in_corridor` (applied to the baseline
geometry, the effective buffer width, `min_curvature` and
`min_segment_length`).  The second component counts routing-engine calls. -/
def find_curvy_route (osrm : List Waypoint → Route)
    (repo : Route → ℚ → ℚ → ℚ → List Segment)
    (request : CurvyRouteRequest) : CurvyRouteResponse × ℕ :=
  let options := request.options
  let baseline := osrm [request.start, request.end_]
  let corridor_width :=
    if baseline.distance < 5000 then min options.corridor_width 5000
    else options.corridor_width
  let max_waypoints :=
    if baseline.distance < 5000 then min options.max_waypoints 10
    else options.max_waypoints
  let segments :=
    repo baseline corridor_width options.min_curvature options.min_segment_length
  match segments with
  | [] => (build_response baseline baseline [] [] corridor_width, 1)
  | _ :: _ =>
    let scored := score_segments segments corridor_width
    let selected := select_segments scored max_waypoints
    match selected with
    | [] => (build_response baseline baseline [] [] corridor_width, 1)
    | _ :: _ =>
      let selected2 := sortByPosition selected
      let waypoint_list := build_waypoint_list request selected2
      let final_route := osrm waypoint_list
      let curvy_infos := build_segment_infos selected2
      let detour_ratio := ratioOf final_route.distance baseline.distance
      if detour_ratio > options.max_detour_ratio then
        let tr := trim_for_detour osrm request baseline selected2
          options.max_detour_ratio 3
        (build_response tr.1 baseline (build_segment_infos tr.2.1) tr.2.2.1
          corridor_width, 2 + tr.2.2.2.2)
      else
        (build_response final_route baseline curvy_infos waypoint_list
          corridor_width, 2)

/-- The score `score_segments` assigns to a member `seg` of the candidate set
`segments`: `scoreOne` applied at the set maxima. -/
def scoreInSet (segments : List Segment) (corridor_width : ℚ) (seg : Segment) : ℚ :=
  (scoreOne (pyMax (segments.map (·.curvature))) (pyMax (segments.map (·.length)))
    corridor_width seg).score

/-! Concrete inputs used to instantiate the theorems below. -/

/-- A sample corridor candidate. -/
def segW1 : Segment := ⟨1, none, 800, 1200, 3000, 0.4, 7, 45⟩

/-- `segW1` carrying curvature 1: the low-curvature singleton candidate. -/
def segLow : Segment := ⟨1, none, 1, 1200, 3000, 0.4, 7, 45⟩

/-- `segLow` with its curvature raised to 2, all other fields unchanged. -/
def segHigh : Segment := ⟨1, none, 2, 1200, 3000, 0.4, 7, 45⟩

/-- A scored candidate at route position 0.1 whose score ties `ssTie2`. -/
def ssTie1 : ScoredSegment := ⟨⟨1, none, 500, 600, 100, 0.1, 7, 45⟩, 1⟩

/-- A scored candidate at route position 0.2 whose score ties `ssTie1`. -/
def ssTie2 : ScoredSegment := ⟨⟨2, none, 500, 600, 100, 0.2, 8, 46⟩, 1⟩

/-- A scored candidate with score 0.9, distinct from `ssD2`'s. -/
def ssD1 : ScoredSegment := ⟨⟨1, none, 500, 600, 100, 0.1, 7, 45⟩, 0.9⟩

/-- A scored candidate with score 0.8, distinct from `ssD1`'s. -/
def ssD2 : ScoredSegment := ⟨⟨2, none, 500, 600, 100, 0.2, 8, 46⟩, 0.8⟩

/-- A routing engine that answers every request with the same route. -/
def osrmW : List Waypoint → Route := fun _ => ⟨[(0, 0), (1, 1)], 1000, 60⟩

/-- A corridor query that never finds candidates. -/
def repoEmptyW : Route → ℚ → ℚ → ℚ → List Segment := fun _ _ _ _ => []

/-- A sample request with the documented default options. -/
def reqW : CurvyRouteRequest := ⟨⟨0, 0⟩, ⟨1, 1⟩, ⟨15000, 500, 500, 20, 2.5⟩⟩

/-- A sample baseline route of 10 km. -/
def baselineW : Route := ⟨[(0, 0), (1, 1)], 10000, 600⟩

/-- `segW1` scored with 0.9. -/
def ssW : ScoredSegment := ⟨segW1, 0.9⟩

/-- A routing engine whose every route has distance 0. -/
def osrmZeroW : List Waypoint → Route := fun _ => ⟨[], 0, 0⟩

instance : IsTotal ScoredSegment fun a b => b.score ≤ a.score :=
  ⟨fun a b => le_total b.score a.score⟩

instance : IsTrans ScoredSegment fun a b => b.score ≤ a.score :=
  ⟨fun _ _ _ h1 h2 => le_trans h2 h1⟩

instance : IsTotal ScoredSegment fun a b => a.score ≤ b.score :=
  ⟨fun a b => le_total a.score b.score⟩

instance : IsTrans ScoredSegment fun a b => a.score ≤ b.score :=
  ⟨fun _ _ _ h1 h2 => le_trans h1 h2⟩

instance : IsTotal ScoredSegment fun a b => a.seg.route_position ≤ b.seg.route_position :=
  ⟨fun a b => le_total a.seg.route_position b.seg.route_position⟩

instance : IsTrans ScoredSegment fun a b => a.seg.route_position ≤ b.seg.route_position :=
  ⟨fun _ _ _ h1 h2 => le_trans h1 h2⟩

/-! Basic facts about `pyMax`. -/

lemma le_foldl_max_init (x : ℚ) (xs : List ℚ) : x ≤ xs.foldl max x := by
  induction xs generalizing x with
  | nil => exact le_refl x
  | cons y ys ih =>
    exact le_trans (le_max_left x y) (ih (max x y))

lemma le_foldl_max_of_mem {a : ℚ} {xs : List ℚ} (h : a ∈ xs) (x : ℚ) :
    a ≤ xs.foldl max x := by
  induction xs generalizing x with
  | nil => cases h
  | cons y ys ih =>
    rcases List.mem_cons.1 h with rfl | h'
    · exact le_trans (le_max_right x a) (le_foldl_max_init (max x a) ys)
    · exact ih h' (max x y)

lemma foldl_max_mem (x : ℚ) (xs : List ℚ) : xs.foldl max x ∈ x :: xs := by
  induction xs generalizing x with
  | nil => exact List.mem_singleton.2 rfl
  | cons y ys ih =>
    have h := ih (max x y)
    rcases List.mem_cons.1 h with h' | h'
    · rcases max_choice x y with hxy | hxy
      · exact List.mem_cons.2 (Or.inl (h'.trans hxy))
      · exact List.mem_cons.2 (Or.inr (List.mem_cons.2 (Or.inl (h'.trans hxy))))
    · exact List.mem_cons.2 (Or.inr (List.mem_cons.2 (Or.inr h')))

lemma le_pyMax_of_mem {a : ℚ} {l : List ℚ} (h : a ∈ l) : a ≤ pyMax l := by
  cases l with
  | nil => cases h
  | cons x xs =>
    rcases List.mem_cons.1 h with rfl | h'
    · exact le_foldl_max_init a xs
    · exact le_foldl_max_of_mem h' x

lemma pyMax_mem : ∀ {l : List ℚ}, l ≠ [] → pyMax l ∈ l
  | [], h => absurd rfl h
  | x :: xs, _ => foldl_max_mem x xs

/-! Basic facts about the three stable sorts. -/

lemma sortByScoreDesc_perm (l : List ScoredSegment) : List.Perm (sortByScoreDesc l) l :=
  List.perm_insertionSort _ l

lemma sortByScoreDesc_sorted (l : List ScoredSegment) :
    List.Sorted (fun a b => b.score ≤ a.score) (sortByScoreDesc l) :=
  List.sorted_insertionSort _ l

lemma sortByScoreAsc_perm (l : List ScoredSegment) : List.Perm (sortByScoreAsc l) l :=
  List.perm_insertionSort _ l

lemma sortByScoreAsc_length (l : List ScoredSegment) :
    (sortByScoreAsc l).length = l.length :=
  List.length_insertionSort _ l

lemma sortByPosition_perm (l : List ScoredSegment) : List.Perm (sortByPosition l) l :=
  List.perm_insertionSort _ l

lemma sortByPosition_length (l : List ScoredSegment) :
    (sortByPosition l).length = l.length :=
  List.length_insertionSort _ l

lemma sortByPosition_sorted (l : List ScoredSegment) :
    List.Sorted (fun a b => a.seg.route_position ≤ b.seg.route_position)
      (sortByPosition l) :=
  List.sorted_insertionSort _ l

/-! Facts about the greedy selection loop. -/

lemma spaced_symm :
    Symmetric fun a b : ScoredSegment =>
      (0.03 : ℚ) ≤ |a.seg.route_position - b.seg.route_position| := by
  intro x y h
  rwa [abs_sub_comm]

lemma selectGo_eq_append (mw : ℕ) :
    ∀ (l selected : List ScoredSegment),
      ∃ s, selectGo mw selected l = selected ++ s ∧ s.Sublist l := by
  intro l
  induction l with
  | nil =>
    intro selected
    exact ⟨[], by simp [selectGo], List.Sublist.refl []⟩
  | cons seg rest ih =>
    intro selected
    by_cases hcap : mw ≤ selected.length
    · exact ⟨[], by simp [selectGo, hcap], List.nil_sublist _⟩
    · by_cases hclose : selected.any (fun s =>
        decide (|seg.seg.route_position - s.seg.route_position| < 0.03))
      · obtain ⟨s, hs, hsub⟩ := ih selected
        exact ⟨s, by simp [selectGo, hcap, hclose, hs], hsub.cons seg⟩
      · obtain ⟨s, hs, hsub⟩ := ih (selected ++ [seg])
        refine ⟨seg :: s, ?_, hsub.cons₂ seg⟩
        simp only [selectGo, if_neg hcap, hclose, if_neg, Bool.false_eq_true,
          not_false_iff, if_false, hs, List.append_assoc, List.singleton_append]

lemma selectGo_length_le (mw : ℕ) :
    ∀ (l selected : List ScoredSegment),
      (selectGo mw selected l).length ≤ max selected.length mw := by
  intro l
  induction l with
  | nil =>
    intro selected
    simp [selectGo]
  | cons seg rest ih =>
    intro selected
    by_cases hcap : mw ≤ selected.length
    · simp [selectGo, hcap]
    · by_cases hclose : selected.any (fun s =>
        decide (|seg.seg.route_position - s.seg.route_position| < 0.03))
      · simpa [selectGo, hcap, hclose] using ih selected
      · have hlt : selected.length < mw := Nat.lt_of_not_le hcap
        have h1 : (selected ++ [seg]).length ≤ mw := by
          simpa [List.length_append] using hlt
        have h3 := ih (selected ++ [seg])
        rw [Nat.max_eq_right h1] at h3
        have h4 : selectGo mw selected (seg :: rest) =
            selectGo mw (selected ++ [seg]) rest := by
          simp [selectGo, hcap, hclose]
        rw [h4]
        exact h3.trans (Nat.le_max_right _ _)

lemma selectGo_pairwise (mw : ℕ) :
    ∀ (l selected : List ScoredSegment),
      selected.Pairwise (fun a b =>
        (0.03 : ℚ) ≤ |a.seg.route_position - b.seg.route_position|) →
      (selectGo mw selected l).Pairwise (fun a b =>
        (0.03 : ℚ) ≤ |a.seg.route_position - b.seg.route_position|) := by
  intro l
  induction l with
  | nil =>
    intro selected h
    simpa [selectGo] using h
  | cons seg rest ih =>
    intro selected h
    by_cases hcap : mw ≤ selected.length
    · simpa [selectGo, hcap] using h
    · by_cases hclose : selected.any (fun s =>
        decide (|seg.seg.route_position - s.seg.route_position| < 0.03))
      · simpa [selectGo, hcap, hclose] using ih selected h
      · have hfar : ∀ s ∈ selected,
            (0.03 : ℚ) ≤ |s.seg.route_position - seg.seg.route_position| := by
          intro s hs
          have := (List.any_eq_false.1 (Bool.of_not_eq_true hclose)) s hs
          rw [abs_sub_comm]
          simpa using this
        have hnew : (selected ++ [seg]).Pairwise (fun a b =>
            (0.03 : ℚ) ≤ |a.seg.route_position - b.seg.route_position|) := by
          rw [List.pairwise_append]
          exact ⟨h, List.pairwise_singleton _ _, by
            intro a ha b hb
            rw [List.mem_singleton] at hb
            subst hb
            exact hfar a ha⟩
        simpa [selectGo, hcap, hclose] using ih (selected ++ [seg]) hnew

/-- C2: the selector returns at most `max_waypoints` entries, no two returned
entries have route positions within `0.03` of each other, and in particular a
candidate at route fraction `0.50` and one at `0.51` are never both selected. -/
theorem c2_selector_cap_and_spacing (scored : List ScoredSegment)
    (max_waypoints : ℕ) :
    (select_segments scored max_waypoints).length ≤ max_waypoints ∧
    (select_segments scored max_waypoints).Pairwise (fun a b =>
      (0.03 : ℚ) ≤ |a.seg.route_position - b.seg.route_position|) ∧
    ∀ a ∈ select_segments scored max_waypoints,
      ∀ b ∈ select_segments scored max_waypoints,
        a.seg.route_position = 0.5 → b.seg.route_position = 0.51 → False := by
  have hpair := selectGo_pairwise max_waypoints scored [] List.Pairwise.nil
  refine ⟨?_, hpair, ?_⟩
  · have := selectGo_length_le max_waypoints scored []
    simpa [select_segments] using this
  · intro a ha b hb hpa hpb
    by_cases hab : a = b
    · subst hab
      rw [hpa] at hpb
      norm_num at hpb
    · have hR := hpair.forall spaced_symm ha hb hab
      rw [hpa, hpb] at hR
      have habs : |(0.5 : ℚ) - 0.51| = 0.01 := by
        rw [abs_sub_comm, abs_of_nonneg] <;> norm_num
      rw [habs] at hR
      norm_num at hR

/-! Facts about the scorer. -/

lemma mem_score_segments {segments : List Segment} {w : ℚ} {s : ScoredSegment}
    (h : s ∈ score_segments segments w) :
    ∃ s0 ∈ segments, s = scoreOne (pyMax (segments.map (·.curvature)))
      (pyMax (segments.map (·.length))) w s0 := by
  cases segments with
  | nil => simp [score_segments] at h
  | cons a rest =>
    simp only [score_segments] at h
    have hmem := (sortByScoreDesc_perm _).mem_iff.1 h
    rcases List.mem_map.1 hmem with ⟨s0, hs0, rfl⟩
    exact ⟨s0, hs0, rfl⟩

lemma normTerm_nonneg {v m : ℚ} (hv : 0 ≤ v) : 0 ≤ normTerm v m := by
  unfold normTerm
  split
  · exact div_nonneg hv (le_of_lt (by assumption))
  · exact le_refl 0

lemma normTerm_le_one {v m : ℚ} (hvm : v ≤ m) : normTerm v m ≤ 1 := by
  unfold normTerm
  split
  · rw [div_le_one (by assumption)]
    exact hvm
  · norm_num

lemma proxTerm_nonneg (d w : ℚ) : 0 ≤ proxTerm d w := le_max_left 0 _

lemma proxTerm_le_one {d w : ℚ} (hd : 0 ≤ d) (hw : 0 < w) : proxTerm d w ≤ 1 := by
  unfold proxTerm
  have : 0 ≤ d / w := div_nonneg hd hw.le
  exact max_le (by norm_num) (by linarith)

lemma scoreOne_score_bounds {maxc maxl w : ℚ} {seg : Segment}
    (hc : 0 ≤ seg.curvature) (hcm : seg.curvature ≤ maxc)
    (hl : 0 ≤ seg.length) (hlm : seg.length ≤ maxl)
    (hd : 0 ≤ seg.distance_from_route) (hw : 0 < w) :
    0 ≤ (scoreOne maxc maxl w seg).score ∧ (scoreOne maxc maxl w seg).score ≤ 1 := by
  have h1 := normTerm_nonneg (m := maxc) hc
  have h2 := normTerm_le_one hcm
  have h3 := normTerm_nonneg (m := maxl) hl
  have h4 := normTerm_le_one hlm
  have h5 := proxTerm_nonneg seg.distance_from_route w
  have h6 := proxTerm_le_one hd hw
  simp only [scoreOne]
  constructor <;> nlinarith

/-- C1: on any candidate set drawn from the corridor (non-negative curvature,
length and distance) and any corridor width in `[1000, 50000]`, `_score_segments`
assigns each candidate the score
`0.5·curv_norm + 0.3·len_norm + 0.2·prox_norm` (each normalization
short-circuited to 0 when its set maximum is not positive), every score lies in
`[0, 1]`, and the empty candidate list yields the empty list. -/
theorem c1_scorer_formula_and_range (segments : List Segment) (corridor_width : ℚ)
    (hw : 1000 ≤ corridor_width ∧ corridor_width ≤ 50000)
    (hfields : ∀ s ∈ segments,
      0 ≤ s.curvature ∧ 0 ≤ s.length ∧ 0 ≤ s.distance_from_route) :
    score_segments [] corridor_width = [] ∧
    List.Perm ((score_segments segments corridor_width).map (·.seg)) segments ∧
    ∀ s ∈ score_segments segments corridor_width,
      s.score =
        0.5 * (if pyMax (segments.map (·.curvature)) > 0
          then s.seg.curvature / pyMax (segments.map (·.curvature)) else 0) +
        0.3 * (if pyMax (segments.map (·.length)) > 0
          then s.seg.length / pyMax (segments.map (·.length)) else 0) +
        0.2 * max 0 (1 - s.seg.distance_from_route / corridor_width) ∧
      0 ≤ s.score ∧ s.score ≤ 1 := by
  have hwpos : (0 : ℚ) < corridor_width := lt_of_lt_of_le (by norm_num) hw.1
  refine ⟨rfl, ?_, ?_⟩
  · cases segments with
    | nil => simp [score_segments]
    | cons a rest =>
      simp only [score_segments]
      have hperm := (sortByScoreDesc_perm
        ((a :: rest).map (scoreOne (pyMax ((a :: rest).map (·.curvature)))
          (pyMax ((a :: rest).map (·.length))) corridor_width))).map
        (fun s : ScoredSegment => s.seg)
      rw [List.map_map] at hperm
      have hcomp : ((fun s : ScoredSegment => s.seg) ∘
          scoreOne (pyMax ((a :: rest).map (·.curvature)))
            (pyMax ((a :: rest).map (·.length))) corridor_width) = id := by
        funext s
        rfl
      rwa [hcomp, List.map_id] at hperm
  · intro s hs
    obtain ⟨s0, hs0, rfl⟩ := mem_score_segments hs
    obtain ⟨hc, hl, hd⟩ := hfields s0 hs0
    have hcm : s0.curvature ≤ pyMax (segments.map (·.curvature)) :=
      le_pyMax_of_mem (List.mem_map_of_mem _ hs0)
    have hlm : s0.length ≤ pyMax (segments.map (·.length)) :=
      le_pyMax_of_mem (List.mem_map_of_mem _ hs0)
    refine ⟨?_, scoreOne_score_bounds hc hcm hl hlm hd hwpos⟩
    simp only [scoreOne, normTerm, proxTerm]
    ring

/-- Witness for C1: the theorem instantiated at the one-candidate set `[segW1]`
and the default corridor width 15000. -/
theorem c1_scorer_witness :
    score_segments [] 15000 = [] ∧
    List.Perm ((score_segments [segW1] 15000).map (·.seg)) [segW1] ∧
    ∀ s ∈ score_segments [segW1] 15000,
      s.score =
        0.5 * (if pyMax ([segW1].map (·.curvature)) > 0
          then s.seg.curvature / pyMax ([segW1].map (·.curvature)) else 0) +
        0.3 * (if pyMax ([segW1].map (·.length)) > 0
          then s.seg.length / pyMax ([segW1].map (·.length)) else 0) +
        0.2 * max 0 (1 - s.seg.distance_from_route / 15000) ∧
      0 ≤ s.score ∧ s.score ≤ 1 :=
  c1_scorer_formula_and_range [segW1] 15000 (by norm_num) (by
    intro s hs
    rw [List.mem_singleton] at hs
    subst hs
    refine ⟨by norm_num [segW1], by norm_num [segW1], by norm_num [segW1]⟩)

/-! Monotonicity of the scorer in each input dimension. -/

lemma pyMax_swap_le_max (as bs : List ℚ) (c c' : ℚ) :
    pyMax (as ++ c' :: bs) ≤ max c' (pyMax (as ++ c :: bs)) := by
  have hne : as ++ c' :: bs ≠ [] := by simp
  have hmem := pyMax_mem hne
  rcases List.mem_append.1 hmem with h | h
  · exact le_max_of_le_right (le_pyMax_of_mem (List.mem_append.2 (Or.inl h)))
  · rcases List.mem_cons.1 h with h' | h'
    · rw [h']
      exact le_max_left _ _
    · exact le_max_of_le_right (le_pyMax_of_mem (by simp [h']))

lemma pyMax_swap_mono (as bs : List ℚ) {c c' : ℚ} (h : c ≤ c') :
    pyMax (as ++ c :: bs) ≤ pyMax (as ++ c' :: bs) := by
  have hne : as ++ c :: bs ≠ [] := by simp
  have hmem := pyMax_mem hne
  rcases List.mem_append.1 hmem with hx | hx
  · exact le_pyMax_of_mem (List.mem_append.2 (Or.inl hx))
  · rcases List.mem_cons.1 hx with h' | h'
    · rw [h']
      exact le_trans h (le_pyMax_of_mem (by simp))
    · exact le_pyMax_of_mem (by simp [h'])

lemma normTerm_swap_mono (as bs : List ℚ) {c c' : ℚ} (h : c ≤ c') :
    normTerm c (pyMax (as ++ c :: bs)) ≤ normTerm c' (pyMax (as ++ c' :: bs)) := by
  have hcM : c ≤ pyMax (as ++ c :: bs) := le_pyMax_of_mem (by simp)
  have hcM' : c' ≤ pyMax (as ++ c' :: bs) := le_pyMax_of_mem (by simp)
  have hMM' : pyMax (as ++ c :: bs) ≤ pyMax (as ++ c' :: bs) := pyMax_swap_mono as bs h
  have hM'max : pyMax (as ++ c' :: bs) ≤ max c' (pyMax (as ++ c :: bs)) :=
    pyMax_swap_le_max as bs c c'
  unfold normTerm
  by_cases h1 : pyMax (as ++ c' :: bs) > 0
  · rw [if_pos h1]
    by_cases h2 : pyMax (as ++ c :: bs) > 0
    · rw [if_pos h2, div_le_div_iff₀ h2 h1]
      rcases le_or_lt (pyMax (as ++ c' :: bs)) (pyMax (as ++ c :: bs)) with hle | hlt
      · have heq : pyMax (as ++ c :: bs) = pyMax (as ++ c' :: bs) :=
          le_antisymm hMM' hle
        nlinarith [heq]
      · have hM'c' : pyMax (as ++ c' :: bs) ≤ c' := by
          rcases max_choice c' (pyMax (as ++ c :: bs)) with hmc | hmc
          · rwa [hmc] at hM'max
          · rw [hmc] at hM'max
            linarith
        have hc'eq : c' = pyMax (as ++ c' :: bs) := le_antisymm hcM' hM'c'
        nlinarith [hc'eq, hcM, h1]
    · rw [if_neg h2]
      have hMle : pyMax (as ++ c :: bs) ≤ 0 := not_lt.1 h2
      have hc'pos : 0 < c' := by
        rcases max_choice c' (pyMax (as ++ c :: bs)) with hmc | hmc
        · rw [hmc] at hM'max
          linarith
        · rw [hmc] at hM'max
          linarith
      exact div_nonneg hc'pos.le h1.le
  · rw [if_neg h1, if_neg (fun h2 => h1 (lt_of_lt_of_le h2 hMM'))]

lemma proxTerm_anti {d d' w : ℚ} (hw : 0 < w) (h : d' ≤ d) :
    proxTerm d w ≤ proxTerm d' w := by
  unfold proxTerm
  have : d' / w ≤ d / w := (div_le_div_iff_of_pos_right hw).2 h
  exact max_le_max le_rfl (by linarith)

/-- C8 counterexample: raising the only candidate's curvature from 1 (`segLow`)
to 2 (`segHigh`), holding its length and distance fixed, leaves its score
unchanged (the candidate is itself the set maximum, so its curvature
normalization stays 1), refuting strict monotonicity. -/
theorem c8_counterexample :
    ¬ (scoreInSet [segLow] 15000 segLow < scoreInSet [segHigh] 15000 segHigh) := by
  norm_num [scoreInSet, scoreOne, pyMax, normTerm, proxTerm, segLow, segHigh]

/-- C8 (amended): the score `_score_segments` assigns to a candidate within its
set is weakly monotone in each input dimension independently: raising the
candidate's curvature (or its length) holding everything else fixed never
lowers its score, and lowering its `distance_from_route` never lowers its
score.  (Strict increase fails when the candidate is the set maximum.)  The
first conjunct ties `scoreInSet` to the scorer's output. -/
theorem c8_scorer_monotonicity :
    (∀ (segments : List Segment) (w : ℚ) (s : ScoredSegment),
        s ∈ score_segments segments w → s.score = scoreInSet segments w s.seg) ∧
    (∀ (w : ℚ) (pre post : List Segment) (seg : Segment) (c' : ℚ),
        seg.curvature ≤ c' →
        scoreInSet (pre ++ seg :: post) w seg ≤
          scoreInSet (pre ++ { seg with curvature := c' } :: post) w
            { seg with curvature := c' }) ∧
    (∀ (w : ℚ) (pre post : List Segment) (seg : Segment) (l' : ℚ),
        seg.length ≤ l' →
        scoreInSet (pre ++ seg :: post) w seg ≤
          scoreInSet (pre ++ { seg with length := l' } :: post) w
            { seg with length := l' }) ∧
    (∀ (w : ℚ) (pre post : List Segment) (seg : Segment) (d' : ℚ),
        0 < w → d' ≤ seg.distance_from_route →
        scoreInSet (pre ++ seg :: post) w seg ≤
          scoreInSet (pre ++ { seg with distance_from_route := d' } :: post) w
            { seg with distance_from_route := d' }) := by
  refine ⟨?_, ?_, ?_, ?_⟩
  · intro segments w s hs
    obtain ⟨s0, _, rfl⟩ := mem_score_segments hs
    rfl
  · intro w pre post seg c' h
    simp only [scoreInSet, scoreOne, List.map_append, List.map_cons]
    have hcurv := normTerm_swap_mono (pre.map (·.curvature)) (post.map (·.curvature)) h
    gcongr
  · intro w pre post seg l' h
    simp only [scoreInSet, scoreOne, List.map_append, List.map_cons]
    have hlen := normTerm_swap_mono (pre.map (·.length)) (post.map (·.length)) h
    gcongr
  · intro w pre post seg d' hw h
    simp only [scoreInSet, scoreOne, List.map_append, List.map_cons]
    have hprox := proxTerm_anti hw h
    gcongr

/-- Witness for C8: the amended monotonicity theorem instantiated at concrete
singleton candidate sets built from `segLow`. -/
theorem c8_monotonicity_witness :
    (scoreOne (pyMax ([segLow].map (·.curvature))) (pyMax ([segLow].map (·.length)))
        15000 segLow).score =
      scoreInSet [segLow] 15000
        (scoreOne (pyMax ([segLow].map (·.curvature)))
          (pyMax ([segLow].map (·.length))) 15000 segLow).seg ∧
    scoreInSet [segLow] 15000 segLow ≤
      scoreInSet [{ segLow with curvature := 2 }] 15000 { segLow with curvature := 2 } ∧
    scoreInSet [segLow] 15000 segLow ≤
      scoreInSet [{ segLow with length := 1300 }] 15000 { segLow with length := 1300 } ∧
    scoreInSet [segLow] 15000 segLow ≤
      scoreInSet [{ segLow with distance_from_route := 2000 }] 15000
        { segLow with distance_from_route := 2000 } :=
  ⟨c8_scorer_monotonicity.1 [segLow] 15000 _
      (by simp [score_segments, sortByScoreDesc, List.insertionSort]),
    c8_scorer_monotonicity.2.1 15000 [] [] segLow 2 (by norm_num [segLow]),
    c8_scorer_monotonicity.2.2.1 15000 [] [] segLow 1300 (by norm_num [segLow]),
    c8_scorer_monotonicity.2.2.2 15000 [] [] segLow 2000 (by norm_num)
      (by norm_num [segLow])⟩

/-! Order-independence of the sort-then-select pipeline. -/

lemma sorted_desc_perm_nodup_eq :
    ∀ (l₁ l₂ : List ScoredSegment), List.Perm l₁ l₂ →
      List.Sorted (fun a b => b.score ≤ a.score) l₁ →
      List.Sorted (fun a b => b.score ≤ a.score) l₂ →
      (l₁.map (·.score)).Nodup → l₁ = l₂ := by
  intro l₁
  induction l₁ with
  | nil =>
    intro l₂ hp _ _ _
    exact hp.nil_eq
  | cons a t ih =>
    intro l₂ hp hs₁ hs₂ hnd
    cases l₂ with
    | nil =>
      have := hp.length_eq
      simp at this
    | cons b t₂ =>
      by_cases hab : a = b
      · subst hab
        have ht : List.Perm t t₂ := hp.cons_inv
        have hnd' : (t.map (·.score)).Nodup := (List.nodup_cons.1 (by simpa using hnd)).2
        rw [ih t₂ ht hs₁.of_cons hs₂.of_cons hnd']
      · exfalso
        have hb_mem : b ∈ a :: t := hp.symm.subset (List.mem_cons_self b t₂)
        have ha_mem : a ∈ b :: t₂ := hp.subset (List.mem_cons_self a t)
        rcases List.mem_cons.1 hb_mem with hba | hbt
        · exact hab hba.symm
        rcases List.mem_cons.1 ha_mem with hab' | hat
        · exact hab hab'
        have h1 : b.score ≤ a.score := List.rel_of_sorted_cons hs₁ b hbt
        have h2 : a.score ≤ b.score := List.rel_of_sorted_cons hs₂ a hat
        have heq : a.score = b.score := le_antisymm h2 h1
        have hnotin : a.score ∉ t.map (·.score) :=
          (List.nodup_cons.1 (by simpa using hnd)).1
        exact hnotin (heq ▸ List.mem_map_of_mem _ hbt)

/-- C9 counterexample: two candidates with equal scores but different route
positions.  The stable descending sort preserves their presentation order, so
with `max_waypoints = 1` the pipeline selects whichever candidate is presented
first: the output depends on the presentation order. -/
theorem c9_counterexample :
    selector_pipeline [ssTie1, ssTie2] 1 ≠ selector_pipeline [ssTie2, ssTie1] 1 := by
  norm_num [selector_pipeline, select_segments, selectGo, sortByScoreDesc,
    List.insertionSort, List.orderedInsert, ssTie1, ssTie2]

/-- C9 (amended): the pipeline (stable descending sort, then greedy spacing
selection) yields an ordered-by-descending-score subset of the sorted input,
and its output is independent of the input's presentation order provided all
scores are pairwise distinct; with tied scores the stable tie-break makes the
output depend on the presentation order. -/
theorem c9_selector_order_independence (l l' : List ScoredSegment) (mw : ℕ)
    (hperm : List.Perm l' l) (hnd : (l.map (·.score)).Nodup) :
    selector_pipeline l' mw = selector_pipeline l mw ∧
    (selector_pipeline l mw).Sublist (sortByScoreDesc l) ∧
    List.Sorted (fun a b => b.score ≤ a.score) (selector_pipeline l mw) := by
  have hsub : (selector_pipeline l mw).Sublist (sortByScoreDesc l) := by
    obtain ⟨s, hs, hsubl⟩ := selectGo_eq_append mw (sortByScoreDesc l) []
    rw [selector_pipeline, select_segments, hs]
    simpa using hsubl
  refine ⟨?_, hsub, List.Pairwise.sublist hsub (sortByScoreDesc_sorted l)⟩
  have hsorted_eq : sortByScoreDesc l' = sortByScoreDesc l := by
    apply sorted_desc_perm_nodup_eq
    · exact (sortByScoreDesc_perm l').trans (hperm.trans (sortByScoreDesc_perm l).symm)
    · exact sortByScoreDesc_sorted l'
    · exact sortByScoreDesc_sorted l
    · have hp2 : List.Perm ((sortByScoreDesc l').map (·.score)) (l.map (·.score)) :=
        ((sortByScoreDesc_perm l').trans hperm).map _
      exact hp2.nodup_iff.2 hnd
  rw [selector_pipeline, selector_pipeline, hsorted_eq]

/-- Witness for C9: the amended theorem instantiated at the two-candidate list
`[ssD1, ssD2]` (distinct scores 0.9 and 0.8) and its transposition. -/
theorem c9_order_independence_witness :
    selector_pipeline [ssD2, ssD1] 1 = selector_pipeline [ssD1, ssD2] 1 ∧
    (selector_pipeline [ssD1, ssD2] 1).Sublist (sortByScoreDesc [ssD1, ssD2]) ∧
    List.Sorted (fun a b => b.score ≤ a.score) (selector_pipeline [ssD1, ssD2] 1) :=
  c9_selector_order_independence [ssD1, ssD2] [ssD2, ssD1] 1
    (List.Perm.swap ssD1 ssD2 [])
    (by norm_num [ssD1, ssD2, List.nodup_cons])

/-! Facts about the detour-trimming loop. -/

lemma trimLoop_succ_of_gt (osrm : List Waypoint → Route)
    (request : CurvyRouteRequest) (baseline : Route) (budget : ℚ) (n : ℕ)
    (remaining : List ScoredSegment) (hle : ¬ remaining.length ≤ 1) :
    trimLoop osrm request baseline budget (n + 1) remaining =
      if ratioOf (osrm (build_waypoint_list request
            (sortByPosition (sortByScoreAsc remaining).tail))).distance
          baseline.distance ≤ budget then
        (some (osrm (build_waypoint_list request
            (sortByPosition (sortByScoreAsc remaining).tail)),
          sortByPosition (sortByScoreAsc remaining).tail,
          build_waypoint_list request (sortByPosition (sortByScoreAsc remaining).tail),
          ratioOf (osrm (build_waypoint_list request
            (sortByPosition (sortByScoreAsc remaining).tail))).distance
            baseline.distance),
         sortByPosition (sortByScoreAsc remaining).tail, 1)
      else
        ((trimLoop osrm request baseline budget n
            (sortByPosition (sortByScoreAsc remaining).tail)).1,
         (trimLoop osrm request baseline budget n
            (sortByPosition (sortByScoreAsc remaining).tail)).2.1,
         (trimLoop osrm request baseline budget n
            (sortByPosition (sortByScoreAsc remaining).tail)).2.2 + 1) := by
  simp only [trimLoop, if_neg hle]

lemma trimLoop_spec (osrm : List Waypoint → Route) (request : CurvyRouteRequest)
    (baseline : Route) (budget : ℚ) :
    ∀ (fuel : ℕ) (remaining : List ScoredSegment),
      remaining.length ≤
        (trimLoop osrm request baseline budget fuel remaining).2.1.length + fuel ∧
      (1 ≤ remaining.length →
        1 ≤ (trimLoop osrm request baseline budget fuel remaining).2.1.length) ∧
      (trimLoop osrm request baseline budget fuel remaining).2.2 ≤ fuel ∧
      (∀ route rem wl ratio,
        (trimLoop osrm request baseline budget fuel remaining).1 =
          some (route, rem, wl, ratio) →
        rem = (trimLoop osrm request baseline budget fuel remaining).2.1 ∧
        wl = build_waypoint_list request rem ∧
        route = osrm wl ∧
        ratio = ratioOf route.distance baseline.distance ∧
        ∃ sel, rem = sortByPosition sel) := by
  intro fuel
  induction fuel with
  | zero =>
    intro remaining
    refine ⟨by simp [trimLoop], by simp [trimLoop], by simp [trimLoop], ?_⟩
    intro route rem wl ratio h
    simp [trimLoop] at h
  | succ n ih =>
    intro remaining
    by_cases hle : remaining.length ≤ 1
    · refine ⟨?_, ?_, ?_, ?_⟩
      · simp [trimLoop, hle]
      · simp [trimLoop, hle]
      · simp [trimLoop, hle]
      · intro route rem wl ratio h
        simp [trimLoop, hle] at h
    · have hlen2 : (sortByPosition (sortByScoreAsc remaining).tail).length =
          remaining.length - 1 := by
        rw [sortByPosition_length, List.length_tail, sortByScoreAsc_length]
      have hge2 : 2 ≤ remaining.length := by omega
      rw [trimLoop_succ_of_gt osrm request baseline budget n remaining hle]
      by_cases hrat : ratioOf (osrm (build_waypoint_list request
            (sortByPosition (sortByScoreAsc remaining).tail))).distance
          baseline.distance ≤ budget
      · rw [if_pos hrat]
        refine ⟨by simp; omega, by simp; omega, by simp, ?_⟩
        intro route rem wl ratio h
        simp only [Option.some.injEq, Prod.mk.injEq] at h
        obtain ⟨hr, hrem, hwl, hratio⟩ := h
        subst hr
        subst hrem
        subst hwl
        subst hratio
        exact ⟨rfl, rfl, rfl, rfl, (sortByScoreAsc remaining).tail, rfl⟩
      · rw [if_neg hrat]
        obtain ⟨ih1, ih2, ih3, ih4⟩ := ih (sortByPosition (sortByScoreAsc remaining).tail)
        refine ⟨by simp; omega, by intro h1; simp; exact ih2 (by omega), by simp; omega, ?_⟩
        intro route rem wl ratio h
        exact ih4 route rem wl ratio h

lemma trim_for_detour_spec (osrm : List Waypoint → Route)
    (request : CurvyRouteRequest) (baseline : Route)
    (selected : List ScoredSegment) (budget : ℚ) (retries : ℕ) :
    selected.length ≤
      (trim_for_detour osrm request baseline selected budget retries).2.1.length
        + retries ∧
    (1 ≤ selected.length →
      1 ≤ (trim_for_detour osrm request baseline selected budget retries).2.1.length) ∧
    (trim_for_detour osrm request baseline selected budget retries).2.2.2.2 ≤
      retries + 1 ∧
    (trim_for_detour osrm request baseline selected budget retries).2.2.1 =
      build_waypoint_list request
        (trim_for_detour osrm request baseline selected budget retries).2.1 ∧
    (trim_for_detour osrm request baseline selected budget retries).1 =
      osrm (trim_for_detour osrm request baseline selected budget retries).2.2.1 ∧
    (trim_for_detour osrm request baseline selected budget retries).2.2.2.1 =
      ratioOf (trim_for_detour osrm request baseline selected budget retries).1.distance
        baseline.distance ∧
    ∃ sel, (trim_for_detour osrm request baseline selected budget retries).2.1 =
      sortByPosition sel := by
  obtain ⟨h1, h2, h3, h4⟩ := trimLoop_spec osrm request baseline budget retries selected
  unfold trim_for_detour
  cases hOpt : (trimLoop osrm request baseline budget retries selected).1 with
  | some val =>
    obtain ⟨route, rem, wl, ratio⟩ := val
    obtain ⟨hrem, hwl, hroute, hratio, sel, hsel⟩ := h4 route rem wl ratio hOpt
    simp only [hOpt]
    rw [← hrem] at h1 h2
    exact ⟨h1, h2, le_trans h3 (Nat.le_succ retries), hwl, hroute, hratio, sel, hsel⟩
  | none =>
    simp only [hOpt]
    refine ⟨?_, ?_, ?_, trivial, trivial, trivial, ?_⟩
    · simpa [sortByPosition_length] using h1
    · intro hp
      simpa [sortByPosition_length] using h2 hp
    · omega
    · exact ⟨(trimLoop osrm request baseline budget retries selected).2.1, rfl⟩

/-- C3: started from any initial selection, `_trim_for_detour` with its fixed
retry budget of 3 removes at most 3 candidates in total, and it never trims
once 1 or fewer candidates remain — so from a non-empty selection at least one
candidate always remains. -/
theorem c3_trim_removes_at_most_three (osrm : List Waypoint → Route)
    (request : CurvyRouteRequest) (baseline : Route)
    (selected : List ScoredSegment) (budget : ℚ) (hne : selected ≠ []) :
    selected.length ≤
      (trim_for_detour osrm request baseline selected budget 3).2.1.length + 3 ∧
    1 ≤ (trim_for_detour osrm request baseline selected budget 3).2.1.length := by
  obtain ⟨h1, h2, _⟩ := trim_for_detour_spec osrm request baseline selected budget 3
  exact ⟨h1, h2 (List.length_pos.2 hne)⟩

/-- Witness for C3: the trim loop run from the singleton selection `[ssW]`. -/
theorem c3_trim_witness :
    ([ssW] : List ScoredSegment).length ≤
      (trim_for_detour osrmW reqW baselineW [ssW] 2.5 3).2.1.length + 3 ∧
    1 ≤ (trim_for_detour osrmW reqW baselineW [ssW] 2.5 3).2.1.length :=
  c3_trim_removes_at_most_three osrmW reqW baselineW [ssW] 2.5 (by simp)

/-- C4: `_trim_for_detour` always terminates by returning the route of its most
recent routing-engine call on the returned selection's waypoint list, together
with that remaining selection and the recomputed ratio; this holds in
particular on the exhausted path (retry budget used up, or fewer than 2
candidates remaining), where the result is returned regardless of whether the
ratio still exceeds `max_detour_ratio` — the function is total and never
raises.  It makes at most `max_retries + 1` routing-engine calls. -/
theorem c4_trim_exhausted_returns_last_route (osrm : List Waypoint → Route)
    (request : CurvyRouteRequest) (baseline : Route)
    (selected : List ScoredSegment) (budget : ℚ) (retries : ℕ) :
    (trim_for_detour osrm request baseline selected budget retries).2.2.1 =
      build_waypoint_list request
        (trim_for_detour osrm request baseline selected budget retries).2.1 ∧
    (trim_for_detour osrm request baseline selected budget retries).1 =
      osrm (trim_for_detour osrm request baseline selected budget retries).2.2.1 ∧
    (trim_for_detour osrm request baseline selected budget retries).2.2.2.1 =
      ratioOf (trim_for_detour osrm request baseline selected budget retries).1.distance
        baseline.distance ∧
    (trim_for_detour osrm request baseline selected budget retries).2.2.2.2 ≤
      retries + 1 := by
  obtain ⟨_, _, h3, h4, h5, h6, _⟩ :=
    trim_for_detour_spec osrm request baseline selected budget retries
  exact ⟨h4, h5, h6, h3⟩

/-! Facts about the orchestrator. -/

lemma ratioOf_self (d : ℚ) : ratioOf d d = 1 := by
  unfold ratioOf
  split
  · exact div_self (ne_of_gt (by assumption))
  · rfl

lemma pyRound_one_two : pyRound 1 2 = 1 := by
  norm_num [pyRound, roundHalfEven]

lemma find_curvy_route_eq_build (osrm : List Waypoint → Route)
    (repo : Route → ℚ → ℚ → ℚ → List Segment) (request : CurvyRouteRequest) :
    ∃ (route : Route) (cs : List CurvySegmentInfo) (gw : List Waypoint)
      (w : ℚ) (n : ℕ),
      find_curvy_route osrm repo request =
        (build_response route (osrm [request.start, request.end_]) cs gw w, n) ∧
      (gw = [] ∨ ∃ sel, gw = build_waypoint_list request (sortByPosition sel)) := by
  simp only [find_curvy_route]
  cases hseg : repo (osrm [request.start, request.end_])
      (if (osrm [request.start, request.end_]).distance < 5000
        then min request.options.corridor_width 5000
        else request.options.corridor_width)
      request.options.min_curvature request.options.min_segment_length with
  | nil =>
    exact ⟨osrm [request.start, request.end_], [], [], _, 1, rfl, Or.inl rfl⟩
  | cons a rest =>
    cases hsel : select_segments
        (score_segments (a :: rest)
          (if (osrm [request.start, request.end_]).distance < 5000
            then min request.options.corridor_width 5000
            else request.options.corridor_width))
        (if (osrm [request.start, request.end_]).distance < 5000
          then min request.options.max_waypoints 10
          else request.options.max_waypoints) with
    | nil =>
      exact ⟨osrm [request.start, request.end_], [], [], _, 1, rfl, Or.inl rfl⟩
    | cons s srest =>
      by_cases hrat : ratioOf (osrm (build_waypoint_list request
            (sortByPosition (s :: srest)))).distance
          (osrm [request.start, request.end_]).distance >
          request.options.max_detour_ratio
      · rw [if_pos hrat]
        obtain ⟨_, _, _, h4, _, _, sel, hsel2⟩ :=
          trim_for_detour_spec osrm request (osrm [request.start, request.end_])
            (sortByPosition (s :: srest)) request.options.max_detour_ratio 3
        exact ⟨_, _, _, _, _, rfl, Or.inr ⟨sel, by rw [h4, hsel2]⟩⟩
      · rw [if_neg hrat]
        exact ⟨_, _, _, _, _, rfl, Or.inr ⟨s :: srest, rfl⟩⟩

/-- C5: when the corridor query returns no candidates, the orchestrator's
result carries the baseline route's geometry, distance and duration, an empty
curvy-segment list, `waypoints_used = 0` and `detour_ratio = 1.0`, and the
baseline call is the only routing-engine call made. -/
theorem c5_empty_corridor_returns_baseline (osrm : List Waypoint → Route)
    (repo : Route → ℚ → ℚ → ℚ → List Segment) (request : CurvyRouteRequest)
    (hempty : ∀ b w mc ml, repo b w mc ml = []) :
    (find_curvy_route osrm repo request).1.geometry =
      (osrm [request.start, request.end_]).geometry ∧
    (find_curvy_route osrm repo request).1.distance =
      (osrm [request.start, request.end_]).distance ∧
    (find_curvy_route osrm repo request).1.duration =
      (osrm [request.start, request.end_]).duration ∧
    (find_curvy_route osrm repo request).1.curvy_segments = [] ∧
    (find_curvy_route osrm repo request).1.waypoints_used = 0 ∧
    (find_curvy_route osrm repo request).1.detour_ratio = 1 ∧
    (find_curvy_route osrm repo request).2 = 1 := by
  have heq : find_curvy_route osrm repo request =
      (build_response (osrm [request.start, request.end_])
        (osrm [request.start, request.end_]) [] []
        (if (osrm [request.start, request.end_]).distance < 5000
          then min request.options.corridor_width 5000
          else request.options.corridor_width), 1) := by
    simp only [find_curvy_route, hempty]
  rw [heq]
  refine ⟨rfl, rfl, rfl, rfl, rfl, ?_, rfl⟩
  show pyRound (ratioOf (osrm [request.start, request.end_]).distance
    (osrm [request.start, request.end_]).distance) 2 = 1
  rw [ratioOf_self, pyRound_one_two]

/-- Witness for C5: the empty-corridor theorem at a concrete engine, request
and an always-empty corridor query. -/
theorem c5_empty_corridor_witness :
    (find_curvy_route osrmW repoEmptyW reqW).1.geometry =
      (osrmW [reqW.start, reqW.end_]).geometry ∧
    (find_curvy_route osrmW repoEmptyW reqW).1.distance =
      (osrmW [reqW.start, reqW.end_]).distance ∧
    (find_curvy_route osrmW repoEmptyW reqW).1.duration =
      (osrmW [reqW.start, reqW.end_]).duration ∧
    (find_curvy_route osrmW repoEmptyW reqW).1.curvy_segments = [] ∧
    (find_curvy_route osrmW repoEmptyW reqW).1.waypoints_used = 0 ∧
    (find_curvy_route osrmW repoEmptyW reqW).1.detour_ratio = 1 ∧
    (find_curvy_route osrmW repoEmptyW reqW).2 = 1 :=
  c5_empty_corridor_returns_baseline osrmW repoEmptyW reqW (fun _ _ _ _ => rfl)

/-- C6: the waypoint list the orchestrator builds is
`[start, centroid_1, …, centroid_k, end]` with centroids ordered by ascending
`route_position`; it always has length `len(selected) + 2`, always begins with
`start` and ends with `end`, the empty selection yields exactly `[start, end]`,
and every non-empty waypoint list returned in a result is such a list built
from a position-sorted selection. -/
theorem c6_waypoint_sequencer (request : CurvyRouteRequest)
    (selected : List ScoredSegment) :
    build_waypoint_list request (sortByPosition selected) =
      [request.start] ++ (sortByPosition selected).map
        (fun s => (⟨s.seg.centroid_lng, s.seg.centroid_lat⟩ : Waypoint))
        ++ [request.end_] ∧
    List.Sorted (fun a b => a.seg.route_position ≤ b.seg.route_position)
      (sortByPosition selected) ∧
    (build_waypoint_list request (sortByPosition selected)).length =
      selected.length + 2 ∧
    (build_waypoint_list request (sortByPosition selected)).head? =
      some request.start ∧
    (build_waypoint_list request (sortByPosition selected)).getLast? =
      some request.end_ ∧
    build_waypoint_list request [] = [request.start, request.end_] ∧
    ∀ (osrm : List Waypoint → Route) (repo : Route → ℚ → ℚ → ℚ → List Segment),
      (find_curvy_route osrm repo request).1.generated_waypoints = [] ∨
      ∃ sel, (find_curvy_route osrm repo request).1.generated_waypoints =
        build_waypoint_list request (sortByPosition sel) := by
  refine ⟨rfl, sortByPosition_sorted selected, ?_, rfl, ?_, rfl, ?_⟩
  · simp [build_waypoint_list, sortByPosition_length]
  · exact List.getLast?_concat _
  · intro osrm repo
    obtain ⟨route, cs, gw, w, n, heq, hgw⟩ := find_curvy_route_eq_build osrm repo request
    rw [heq]
    exact hgw

/-- C7: every detour-ratio computation is guarded — with a zero baseline
distance the ratio is defined as 1.0 instead of dividing (and the orchestrator
then reports `detour_ratio = 1`), and a non-positive set maximum makes the
corresponding normalization term 0 instead of dividing; the embedding is total,
so no arithmetic error is possible. -/
theorem c7_division_guards :
    (∀ d : ℚ, ratioOf d 0 = 1) ∧
    (∀ v : ℚ, normTerm v 0 = 0) ∧
    (∀ (osrm : List Waypoint → Route) (repo : Route → ℚ → ℚ → ℚ → List Segment)
      (request : CurvyRouteRequest),
      (osrm [request.start, request.end_]).distance = 0 →
      (find_curvy_route osrm repo request).1.detour_ratio = 1) := by
  refine ⟨fun d => by simp [ratioOf], fun v => by simp [normTerm], ?_⟩
  intro osrm repo request h0
  obtain ⟨route, cs, gw, w, n, heq, _⟩ := find_curvy_route_eq_build osrm repo request
  rw [heq]
  show pyRound (ratioOf route.distance
    (osrm [request.start, request.end_]).distance) 2 = 1
  rw [h0]
  rw [show ratioOf route.distance 0 = 1 by simp [ratioOf]]
  exact pyRound_one_two

/-- Witness for C7: the zero-length-baseline conjunct applied to a concrete
engine that reports distance 0 for every request. -/
theorem c7_division_guards_witness :
    (find_curvy_route osrmZeroW repoEmptyW reqW).1.detour_ratio = 1 :=
  c7_division_guards.2.2 osrmZeroW repoEmptyW reqW rfl

/-- C10: every response the orchestrator constructs is internally consistent:
`waypoints_used` is the length of `curvy_segments`, `total_curvature_score` is
the sum of their curvatures, and `detour_ratio` is
`round(distance / baseline_distance, 2)` (1.0 for a zero baseline), recomputed
from the route actually returned. -/
theorem c10_response_consistency (osrm : List Waypoint → Route)
    (repo : Route → ℚ → ℚ → ℚ → List Segment) (request : CurvyRouteRequest) :
    (find_curvy_route osrm repo request).1.waypoints_used =
      (find_curvy_route osrm repo request).1.curvy_segments.length ∧
    (find_curvy_route osrm repo request).1.total_curvature_score =
      ((find_curvy_route osrm repo request).1.curvy_segments.map (·.curvature)).sum ∧
    (find_curvy_route osrm repo request).1.detour_ratio =
      pyRound (if (find_curvy_route osrm repo request).1.baseline_distance > 0
        then (find_curvy_route osrm repo request).1.distance /
          (find_curvy_route osrm repo request).1.baseline_distance
        else 1) 2 := by
  obtain ⟨route, cs, gw, w, n, heq, _⟩ := find_curvy_route_eq_build osrm repo request
  rw [heq]
  exact ⟨rfl, rfl, rfl⟩

end CurvyRoute
